import Mathlib

set_option autoImplicit false

/-!
Shallow embedding of liten.py (Liten 0.1.3, a duplicate-file finder).

The scan core is `LitenBaseClass.diskWalker`: for each regular file at or
above a byte-size threshold it first checks whether the file's byte size
was seen before (`byte_cache`); only then is an md5 checksum computed and
looked up in `checksum_cache_key`, a hit producing a duplicate record in
`confirmed_dup_key` and report lines.

Modelling choices, all taken from the source:
* a file is its path, raw byte content, readability flag, mtime, ctime and
  extension; `os.path.getsize` is the content length, `time.strftime`
  formatting of dates is out of scope so dates stay epoch numbers;
* the md5 digest is modelled as an injective function of the content
  (identity), as the program trusts a digest match as content equality;
* `createChecksum` returns `none` when the file cannot be opened
  (the `except IOError` branch of liten.py returns `None`);
* Python dicts become association lists: lookup is first match,
  `byte_cache` and `checksum_cache_key` only ever insert absent keys,
  `confirmed_dup_key` insertion overwrites an existing key in place;
* the locals `modDate`, `searchDate`, `fileExt` of `diskWalker` are only
  assigned in the register branch; reaching the duplicate-match branch
  before any register raises `NameError` in Python, modelled by the step
  returning `none` (the whole call aborts);
* ghost event lists (`dupEvents`, `reportLines`, `hashedPaths`) record the
  observable actions (duplicate found, report writes, `createChecksum`
  calls) in order; they add no control flow.
-/

namespace Liten

/-- A regular file as the scan sees it: full path, raw byte content,
whether opening it for reading succeeds, modification and creation times
(epoch numbers), and the extension `os.path.splitext` yields. -/
structure FSFile where
  path : String
  bytes : List Nat
  readable : Bool
  mtime : Nat
  ctime : Nat
  ext : String
  deriving Repr, DecidableEq

/-- os.path.getsize: the byte size of a file is its content length. -/
def byteSizeOf (f : FSFile) : Nat := f.bytes.length

/-- makeModDate of liten.py: the file's modification time (formatting
out of scope). -/
def makeModDate (f : FSFile) : Nat := f.mtime

/-- makeCreateDate of liten.py: the file's creation time (formatting
out of scope). -/
def makeCreateDate (f : FSFile) : Nat := f.ctime

/-- createExt of liten.py: the extension os.path.splitext returns. -/
def createExt (f : FSFile) : String := f.ext

/-- The md5 content digest, modelled as an injective function of the
content (liten.py trusts a digest match as content equality). -/
def md5digest (bs : List Nat) : List Nat := bs

/-- createChecksum of liten.py: digest of the whole content on success,
`none` when opening the file raises IOError. -/
def createChecksum (f : FSFile) : Option (List Nat) :=
  if f.readable then some (md5digest f.bytes) else none

/-- One value of the record dicts liten.py builds (`checksum_cache_value`
and `confirmed_dup_value` share this shape); `fileType` is always `None`
in the source. -/
structure FileRec where
  fullPath : String
  modDate : Nat
  dupNumber : Nat
  searchDate : Nat
  checksum : Option (List Nat)
  bytes : Nat
  fileType : Option Unit
  fileExt : String
  deriving Repr, DecidableEq

/-- The diskWalker locals assigned only in the register branch
(`modDate`, `searchDate`, `fileExt`); the local `fileType` is the
constant `None` and carries no data. -/
structure RegLocals where
  modDate : Nat
  searchDate : Nat
  fileExt : String
  deriving Repr, DecidableEq

/-- The instance attributes set in `LitenBaseClass.__init__`: sizes seen
(`byte_cache`), checksum-to-record cache (`checksum_cache_key`), the most
recently registered record (`checksum_cache_value`, `none` while still the
empty dict of `__init__`), and the duplicate registry
(`confirmed_dup_key`).  These persist for the life of the instance. -/
structure LitenInstance where
  byte_cache : List Nat
  checksum_cache_key : List (Option (List Nat) × FileRec)
  checksum_cache_value : Option FileRec
  confirmed_dup_key : List (String × Option FileRec)
  deriving Repr, DecidableEq

/-- Ghost record of one duplicate match: the cached original's path, the
current file's path, the current file's byte size and checksum. -/
structure DupEvent where
  origPath : String
  dupPath : String
  bytes : Nat
  checksum : Option (List Nat)
  deriving Repr, DecidableEq

/-- One line written to the report file: the header line, or an entry
line carrying the version label, path, size in MB (integer division) and
the date the source prints. -/
inductive ReportLine where
  | header
  | entry (version : String) (path : String) (sizeMB : Nat) (date : Nat)
  deriving Repr, DecidableEq

/-- The full state of one diskWalker call: the instance attributes plus
the per-call locals `byte_count`, `dupNumber`, `record_count` and the
register-branch locals, plus the ghost event lists. -/
structure ScanState where
  inst : LitenInstance
  byte_count : Nat
  dupNumber : Nat
  record_count : Nat
  regLocals : Option RegLocals
  dupEvents : List DupEvent
  reportLines : List ReportLine
  hashedPaths : List String
  deriving Repr, DecidableEq

/-- Lookup in the checksum cache (`has_key` plus indexing on a Python
dict; keys are unique, so first match is dict lookup). -/
def cacheLookup : List (Option (List Nat) × FileRec) → Option (List Nat) → Option FileRec
  | [], _ => none
  | (k, r) :: t, h => if h = k then some r else cacheLookup t h

/-- Python dict assignment on the duplicate registry: overwrite the
existing entry for the key in place, or append a new entry. -/
def dictInsert : List (String × Option FileRec) → String → Option FileRec →
    List (String × Option FileRec)
  | [], k, v => [(k, v)]
  | (k1, v1) :: t, k, v =>
    if k = k1 then (k, v) :: t else (k1, v1) :: dictInsert t k v

/-- Python dict lookup on the duplicate registry. -/
def dictLookup : List (String × Option FileRec) → String → Option (Option FileRec)
  | [], _ => none
  | (k1, v1) :: t, k => if k = k1 then some v1 else dictLookup t k

/-- One iteration of the diskWalker file loop (liten.py lines 240-324)
on a regular file: count the file, apply the size threshold, seed the
size cache on a first-seen size, otherwise checksum the file and either
register it or record a duplicate match.  Returns `none` when Python
would raise NameError (match branch with the register-branch locals
still unassigned). -/
def scanStep (thr d : Nat) (s : ScanState) (f : FSFile) : Option ScanState :=
  let size := byteSizeOf f
  let s1 : ScanState := { s with record_count := s.record_count + 1 }
  if thr ≤ size then
    if size ∈ s1.inst.byte_cache then
      let checksum := createChecksum f
      let s2 : ScanState := { s1 with hashedPaths := s1.hashedPaths ++ [f.path] }
      match cacheLookup s2.inst.checksum_cache_key checksum with
      | some origRec =>
        match s2.regLocals with
        | none => none
        | some l =>
          let dupNumber := s2.dupNumber + 1
          let origPath := origRec.fullPath
          let dupeModDate := makeCreateDate f
          let confirmed_dup_value : FileRec :=
            { fullPath := f.path, modDate := l.modDate, dupNumber := dupNumber,
              searchDate := l.searchDate, checksum := checksum, bytes := size,
              fileType := none, fileExt := l.fileExt }
          some { s2 with
            byte_count := s2.byte_count + size,
            dupNumber := dupNumber,
            inst := { s2.inst with
              confirmed_dup_key :=
                dictInsert
                  (dictInsert s2.inst.confirmed_dup_key origPath s2.inst.checksum_cache_value)
                  f.path (some confirmed_dup_value) },
            dupEvents := s2.dupEvents ++ [⟨origPath, f.path, size, checksum⟩],
            reportLines := s2.reportLines ++
              [ReportLine.header,
               ReportLine.entry "Original" origPath (size / 1048576) origRec.modDate,
               ReportLine.entry "Duplicate" f.path (size / 1048576) dupeModDate] }
      | none =>
        let checksum2 := createChecksum f
        let s3 : ScanState := { s2 with hashedPaths := s2.hashedPaths ++ [f.path] }
        let modDate := makeCreateDate f
        let newRec : FileRec :=
          { fullPath := f.path, modDate := modDate, dupNumber := s3.dupNumber,
            searchDate := d, checksum := checksum2, bytes := size,
            fileType := none, fileExt := createExt f }
        some { s3 with
          inst := { s3.inst with
            checksum_cache_key := s3.inst.checksum_cache_key ++ [(checksum2, newRec)],
            checksum_cache_value := some newRec },
          regLocals := some ⟨modDate, d, createExt f⟩ }
    else
      some { s1 with inst := { s1.inst with byte_cache := s1.inst.byte_cache ++ [size] } }
  else
    some s1

/-- The diskWalker file loop over an enumeration of regular files,
aborting (as Python does on NameError) when a step aborts. -/
def scanList (thr d : Nat) : ScanState → List FSFile → Option ScanState
  | s, [] => some s
  | s, f :: fs =>
    match scanStep thr d s f with
    | none => none
    | some s2 => scanList thr d s2 fs

/-- The call state at the top of diskWalker: the instance attributes as
they currently are, every per-call counter zero, register-branch locals
unassigned, no events yet. -/
def initCall (inst : LitenInstance) : ScanState :=
  { inst := inst, byte_count := 0, dupNumber := 0, record_count := 0,
    regLocals := none, dupEvents := [], reportLines := [], hashedPaths := [] }

/-- The instance attributes right after `LitenBaseClass.__init__`. -/
def initLitenInstance : LitenInstance :=
  { byte_cache := [], checksum_cache_key := [], checksum_cache_value := none,
    confirmed_dup_key := [] }

/-- One diskWalker call on an instance whose attributes are `inst`, over
the enumerated regular files, with threshold `thr` (bytes) and current
search date `d`. -/
def diskWalker (inst : LitenInstance) (files : List FSFile) (thr d : Nat) :
    Option ScanState :=
  scanList thr d (initCall inst) files

/-- The ordered (original path, duplicate path) pairs of the scan. -/
def dupPairs (s : ScanState) : List (String × String) :=
  s.dupEvents.map fun e => (e.origPath, e.dupPath)

/-- Invariant: every checksum-cache entry was produced by some scanned
file, whose path it carries and whose checksum is the entry's key. -/
def CacheSound (U : List FSFile) (s : ScanState) : Prop :=
  ∀ k r, (k, r) ∈ s.inst.checksum_cache_key →
    ∃ g, g ∈ U ∧ r.fullPath = g.path ∧ createChecksum g = k

/-- Invariant: every recorded duplicate pair joins two scanned files with
the same checksum, the checksum the event carries. -/
def EventsSound (U : List FSFile) (s : ScanState) : Prop :=
  ∀ e, e ∈ s.dupEvents →
    ∃ g1 g2, g1 ∈ U ∧ g2 ∈ U ∧ e.origPath = g1.path ∧ e.dupPath = g2.path ∧
      createChecksum g1 = e.checksum ∧ createChecksum g2 = e.checksum

/-- The checksum of the projected view of a file (path, bytes,
readability) used by the determinism argument. -/
def pChecksum (g : String × List Nat × Bool) : Option (List Nat) :=
  if g.2.2 then some (md5digest g.2.1) else none

/-- Checksum-cache lookup on the projected cache (key and original path
only). -/
def pLookup : List (Option (List Nat) × String) → Option (List Nat) → Option String
  | [], _ => none
  | (k, p) :: t, h => if h = k then some p else pLookup t h

/-- The part of the scan state that the control flow and the emitted
duplicate pairs depend on: sizes seen, projected cache, whether the
register-branch locals are assigned, and the pairs so far. -/
structure PState where
  sizes : List Nat
  cache : List (Option (List Nat) × String)
  regSome : Bool
  pairs : List (String × String)
  deriving Repr, DecidableEq

/-- The scan step on the projected state: same branching as `scanStep`,
tracking only what `PState` keeps. -/
def pStep (thr : Nat) (p : PState) (g : String × List Nat × Bool) : Option PState :=
  let size := g.2.1.length
  if thr ≤ size then
    if size ∈ p.sizes then
      match pLookup p.cache (pChecksum g) with
      | some orig =>
        if p.regSome then
          some { p with pairs := p.pairs ++ [(orig, g.1)] }
        else none
      | none =>
        some { p with cache := p.cache ++ [(pChecksum g, g.1)], regSome := true }
    else
      some { p with sizes := p.sizes ++ [size] }
  else
    some p

/-- The projected scan over a list of projected files. -/
def pList (thr : Nat) : PState → List (String × List Nat × Bool) → Option PState
  | p, [] => some p
  | p, g :: gs =>
    match pStep thr p g with
    | none => none
    | some p2 => pList thr p2 gs

/-- The projection of a file to the data the scan's control flow and
pair output depend on: path, content bytes, readability. -/
def keyProj (f : FSFile) : String × List Nat × Bool := (f.path, f.bytes, f.readable)

/-- The projection of the checksum cache to keys and original paths. -/
def cacheProj (l : List (Option (List Nat) × FileRec)) : List (Option (List Nat) × String) :=
  l.map fun q => (q.1, q.2.fullPath)

/-- The projection of a scan state to a `PState`. -/
def projS (s : ScanState) : PState :=
  ⟨s.inst.byte_cache, cacheProj s.inst.checksum_cache_key, s.regLocals.isSome, dupPairs s⟩

/-- Fixture: a readable 1-byte file seeding the size-seen set. -/
def fileSeed : FSFile := ⟨"seed", [0], true, 0, 0, ""⟩

/-- Fixture: an unreadable 1-byte file. -/
def fileUnreadOne : FSFile := ⟨"u1", [1], false, 10, 20, ""⟩

/-- Fixture: a second unreadable 1-byte file with different content. -/
def fileUnreadTwo : FSFile := ⟨"u2", [2], false, 30, 40, ""⟩

/-- Fixture: first of three byte-identical 2-byte files. -/
def fileDupA : FSFile := ⟨"a", [7, 7], true, 11, 22, ".txt"⟩

/-- Fixture: second of three byte-identical 2-byte files, with distinct
modification and creation times. -/
def fileDupB : FSFile := ⟨"b", [7, 7], true, 111, 222, ".txt"⟩

/-- Fixture: third of three byte-identical 2-byte files, with distinct
modification and creation times. -/
def fileDupC : FSFile := ⟨"c", [7, 7], true, 333, 444, ".txt"⟩

/-- Fixture: a 1-byte file, below a 100-byte threshold. -/
def fileSmall : FSFile := ⟨"small", [1], true, 0, 0, ""⟩

/-- Fixture: a readable 1-byte file with content 1. -/
def fileX : FSFile := ⟨"x", [1], true, 0, 0, ""⟩

/-- Fixture: a readable 1-byte file with content 2. -/
def fileY : FSFile := ⟨"y", [2], true, 0, 0, ""⟩

/-- Fixture: a cached record for checksum `some [9]`. -/
def recOrig : FileRec := ⟨"orig", 1, 0, 2, some [9], 1, none, ".o"⟩

/-- Fixture: a different record standing as the most recently registered
one (`checksum_cache_value`). -/
def recLast : FileRec := ⟨"other", 3, 0, 4, some [8], 1, none, ".p"⟩

/-- Fixture: a scan state whose cache holds `recOrig` under `some [9]`
while `checksum_cache_value` is `recLast` and the register-branch locals
hold values 77, 88, ".old". -/
def stateTen : ScanState :=
  ⟨⟨[1], [(some [9], recOrig)], some recLast, []⟩, 0, 0, 0,
    some ⟨77, 88, ".old"⟩, [], [], []⟩

/-- Fixture: a file whose checksum matches the `stateTen` cache entry. -/
def fileTen : FSFile := ⟨"dup", [9], true, 5, 6, ".new"⟩

/-- Fixture: a fresh call state whose size-seen set already holds 1. -/
def stateSeeded : ScanState :=
  { initCall initLitenInstance with inst := { initLitenInstance with byte_cache := [1] } }

/-- Fixture: the state after scanning `fileX` then `fileY` from a fresh
instance. -/
def stateXY : ScanState :=
  (diskWalker initLitenInstance [fileX, fileY] 1 5).getD (initCall initLitenInstance)

theorem cacheLookup_nil (h : Option (List Nat)) : cacheLookup [] h = none := rfl

theorem cacheLookup_cons (k h : Option (List Nat)) (r : FileRec)
    (t : List (Option (List Nat) × FileRec)) :
    cacheLookup ((k, r) :: t) h = if h = k then some r else cacheLookup t h := rfl

theorem cacheLookup_append_of_some (l extra : List (Option (List Nat) × FileRec))
    (k : Option (List Nat)) (r : FileRec) (h : cacheLookup l k = some r) :
    cacheLookup (l ++ extra) k = some r := by
  induction l with
  | nil => simp [cacheLookup] at h
  | cons p t ih =>
    obtain ⟨k1, r1⟩ := p
    rw [cacheLookup_cons] at h
    rw [List.cons_append, cacheLookup_cons]
    split at h
    · rename_i hk
      rw [if_pos hk]
      exact h
    · rename_i hk
      rw [if_neg hk]
      exact ih h

theorem cacheLookup_mem (l : List (Option (List Nat) × FileRec))
    (k : Option (List Nat)) (r : FileRec) (h : cacheLookup l k = some r) :
    (k, r) ∈ l := by
  induction l with
  | nil => simp [cacheLookup] at h
  | cons p t ih =>
    obtain ⟨k1, r1⟩ := p
    rw [cacheLookup_cons] at h
    split at h
    · obtain rfl := (Option.some_inj).mp h
      simp_all
    · exact List.mem_cons_of_mem _ (ih h)

theorem cacheLookup_append_last (l : List (Option (List Nat) × FileRec))
    (k : Option (List Nat)) (r : FileRec) (h : cacheLookup l k = none) :
    cacheLookup (l ++ [(k, r)]) k = some r := by
  induction l with
  | nil => simp [cacheLookup]
  | cons p t ih =>
    obtain ⟨k1, r1⟩ := p
    rw [cacheLookup_cons] at h
    rw [List.cons_append, cacheLookup_cons]
    split at h
    · exact absurd h (by simp)
    · rename_i hk
      rw [if_neg hk]
      exact ih h

theorem dictLookup_dictInsert_self (t : List (String × Option FileRec))
    (k : String) (v : Option FileRec) :
    dictLookup (dictInsert t k v) k = some v := by
  induction t with
  | nil => simp [dictInsert, dictLookup]
  | cons p t ih =>
    obtain ⟨k1, v1⟩ := p
    by_cases h : k = k1 <;> simp [dictInsert, dictLookup, h, ih]

theorem dictLookup_dictInsert_ne (t : List (String × Option FileRec))
    (k k1 : String) (v : Option FileRec) (h : k ≠ k1) :
    dictLookup (dictInsert t k1 v) k = dictLookup t k := by
  induction t with
  | nil => simp [dictInsert, dictLookup, h]
  | cons p t ih =>
    obtain ⟨k2, v2⟩ := p
    by_cases h2 : k1 = k2
    · subst h2
      simp [dictInsert, dictLookup, h]
    · by_cases h3 : k = k2 <;> simp [dictInsert, dictLookup, h2, h3, ih]

theorem scanStep_cache_persists (thr d : Nat) (s s2 : ScanState) (f : FSFile)
    (k : Option (List Nat)) (r : FileRec)
    (hk : cacheLookup s.inst.checksum_cache_key k = some r)
    (hs : scanStep thr d s f = some s2) :
    cacheLookup s2.inst.checksum_cache_key k = some r := by
  simp only [scanStep] at hs
  split at hs
  · split at hs
    · split at hs
      · split at hs
        · exact absurd hs (by simp)
        · cases hs
          simpa using hk
      · cases hs
        simpa using cacheLookup_append_of_some _ _ _ _ hk
    · cases hs
      simpa using hk
  · cases hs
    simpa using hk

theorem scanStep_sound (U : List FSFile) (thr d : Nat) (s s2 : ScanState) (f : FSFile)
    (hf : f ∈ U) (hc : CacheSound U s) (he : EventsSound U s)
    (hs : scanStep thr d s f = some s2) :
    CacheSound U s2 ∧ EventsSound U s2 := by
  simp only [scanStep] at hs
  split at hs
  · split at hs
    · split at hs
      · rename_i origRec heq
        split at hs
        · exact absurd hs (by simp)
        · rename_i l hl
          cases hs
          constructor
          · intro k r hmem2
            exact hc k r (by simpa using hmem2)
          · intro e he2
            rcases (by simpa using he2 : e ∈ s.dupEvents ∨
                e = ⟨origRec.fullPath, f.path, byteSizeOf f, createChecksum f⟩) with h1 | h1
            · exact he e h1
            · subst h1
              obtain ⟨g1, hg1, hp1, hck1⟩ := hc _ _ (cacheLookup_mem _ _ _ heq)
              exact ⟨g1, f, hg1, hf, hp1, rfl, hck1, rfl⟩
      · cases hs
        constructor
        · intro k r hmem2
          rcases (by simpa using hmem2 : (k, r) ∈ s.inst.checksum_cache_key ∨
              k = createChecksum f ∧
                r = ⟨f.path, makeCreateDate f, s.dupNumber, d, createChecksum f,
                  byteSizeOf f, none, createExt f⟩) with h1 | h1
          · exact hc k r h1
          · obtain ⟨rfl, rfl⟩ := h1
            exact ⟨f, hf, rfl, rfl⟩
        · intro e he2
          exact he e (by simpa using he2)
    · cases hs
      constructor
      · intro k r hmem2
        exact hc k r (by simpa using hmem2)
      · intro e he2
        exact he e (by simpa using he2)
  · cases hs
    constructor
    · intro k r hmem2
      exact hc k r (by simpa using hmem2)
    · intro e he2
      exact he e (by simpa using he2)

theorem scanList_sound (U : List FSFile) (thr d : Nat) (files : List FSFile)
    (s s2 : ScanState) (hsub : ∀ g ∈ files, g ∈ U)
    (hc : CacheSound U s) (he : EventsSound U s)
    (hrun : scanList thr d s files = some s2) :
    CacheSound U s2 ∧ EventsSound U s2 := by
  induction files generalizing s with
  | nil =>
    simp only [scanList] at hrun
    cases hrun
    exact ⟨hc, he⟩
  | cons f fs ih =>
    simp only [scanList] at hrun
    split at hrun
    · exact absurd hrun (by simp)
    · rename_i s1 hstep
      obtain ⟨hc1, he1⟩ := scanStep_sound U thr d s s1 f
        (hsub f (List.mem_cons_self f fs)) hc he hstep
      exact ih s1 (fun g hg => hsub g (List.mem_cons_of_mem f hg)) hc1 he1 hrun

theorem pLookup_cons (k h : Option (List Nat)) (p : String)
    (t : List (Option (List Nat) × String)) :
    pLookup ((k, p) :: t) h = if h = k then some p else pLookup t h := rfl

theorem pLookup_cacheProj (l : List (Option (List Nat) × FileRec)) (k : Option (List Nat)) :
    pLookup (cacheProj l) k = (cacheLookup l k).map FileRec.fullPath := by
  induction l with
  | nil => rfl
  | cons q t ih =>
    obtain ⟨k1, r1⟩ := q
    simp only [cacheProj, List.map_cons] at ih ⊢
    by_cases h : k = k1 <;> simp [pLookup_cons, cacheLookup_cons, h, ih]

theorem pChecksum_keyProj (f : FSFile) : pChecksum (keyProj f) = createChecksum f := rfl

theorem cacheProj_append (l1 l2 : List (Option (List Nat) × FileRec)) :
    cacheProj (l1 ++ l2) = cacheProj l1 ++ cacheProj l2 := List.map_append _ l1 l2

theorem cacheProj_single (k : Option (List Nat)) (r : FileRec) :
    cacheProj [(k, r)] = [(k, r.fullPath)] := rfl

theorem keyProj_fst (f : FSFile) : (keyProj f).1 = f.path := rfl

theorem keyProj_len (f : FSFile) : (keyProj f).2.1.length = byteSizeOf f := rfl

theorem scanStep_projS (thr d : Nat) (s : ScanState) (f : FSFile) :
    (scanStep thr d s f).map projS = pStep thr (projS s) (keyProj f) := by
  by_cases hthr : thr ≤ byteSizeOf f
  · by_cases hmem : byteSizeOf f ∈ s.inst.byte_cache
    · cases hl : cacheLookup s.inst.checksum_cache_key (createChecksum f) with
      | none =>
        simp [scanStep, pStep, projS, dupPairs, pLookup_cacheProj, cacheProj_append,
          cacheProj_single, pChecksum_keyProj, keyProj_fst, keyProj_len, hthr, hmem, hl]
      | some r =>
        cases hrl : s.regLocals with
        | none =>
          simp [scanStep, pStep, projS, dupPairs, pLookup_cacheProj, cacheProj_append,
            cacheProj_single, pChecksum_keyProj, keyProj_fst, keyProj_len, hthr, hmem, hl, hrl]
        | some l =>
          simp [scanStep, pStep, projS, dupPairs, pLookup_cacheProj, cacheProj_append,
            cacheProj_single, pChecksum_keyProj, keyProj_fst, keyProj_len, hthr, hmem, hl, hrl]
    · simp [scanStep, pStep, projS, dupPairs, pLookup_cacheProj, cacheProj_append,
        cacheProj_single, pChecksum_keyProj, keyProj_fst, keyProj_len, hthr, hmem]
  · simp [scanStep, pStep, projS, dupPairs, keyProj_len, hthr]

theorem scanList_projS (thr d : Nat) (files : List FSFile) (s : ScanState) :
    (scanList thr d s files).map projS = pList thr (projS s) (files.map keyProj) := by
  induction files generalizing s with
  | nil => rfl
  | cons f fs ih =>
    rw [List.map_cons]
    simp only [scanList, pList]
    rw [← scanStep_projS thr d s f]
    cases hstep : scanStep thr d s f with
    | none => simp
    | some s1 => simpa using ih s1

theorem map_pairs_projS (o : Option ScanState) :
    (o.map projS).map PState.pairs = o.map dupPairs := by
  cases o <;> rfl

/-- C1: for a tree holding exactly three byte-identical readable files at
or above the threshold (and no other file of that size), the scan emits
exactly one duplicate record, pairing the second file as original and the
third as duplicate, and the wasted-byte total is one file's size. -/
theorem three_identical_files_one_duplicate (f1 f2 f3 : FSFile) (thr d : Nat)
    (hthr : thr ≤ f1.bytes.length)
    (hb2 : f2.bytes = f1.bytes) (hb3 : f3.bytes = f1.bytes)
    (hr2 : f2.readable = true) (hr3 : f3.readable = true) :
    (diskWalker initLitenInstance [f1, f2, f3] thr d).map
        (fun s => (s.dupEvents, s.dupNumber, s.byte_count)) =
      some ([⟨f2.path, f3.path, f1.bytes.length, some (md5digest f1.bytes)⟩], 1,
        f1.bytes.length) := by
  simp [diskWalker, scanList, scanStep, initCall, initLitenInstance, byteSizeOf,
    createChecksum, md5digest, createExt, makeCreateDate, hb2, hb3, hr2, hr3, hthr,
    cacheLookup_nil, cacheLookup_cons]

theorem three_identical_files_one_duplicate_witness :
    (diskWalker initLitenInstance [fileDupA, fileDupB, fileDupC] 1 5).map
        (fun s => (s.dupEvents, s.dupNumber, s.byte_count)) =
      some ([⟨fileDupB.path, fileDupC.path, fileDupA.bytes.length,
        some (md5digest fileDupA.bytes)⟩], 1, fileDupA.bytes.length) :=
  three_identical_files_one_duplicate fileDupA fileDupB fileDupC 1 5
    (by decide) (by decide) (by decide) rfl rfl

/-- C2: for a tree holding exactly two byte-identical readable files at
or above the threshold, no duplicate is recorded and the registry stays
empty: the first file is never checksummed, and the second file's
checksum is registered in the cache instead of matching. -/
theorem two_identical_files_not_detected (f1 f2 : FSFile) (thr d : Nat)
    (hthr : thr ≤ f1.bytes.length)
    (hb2 : f2.bytes = f1.bytes)
    (hr2 : f2.readable = true)
    (hne : f1.path ≠ f2.path) :
    (diskWalker initLitenInstance [f1, f2] thr d).map
        (fun s => (s.dupEvents, s.inst.confirmed_dup_key, s.hashedPaths,
          (cacheLookup s.inst.checksum_cache_key
            (some (md5digest f1.bytes))).map FileRec.fullPath)) =
      some ([], [], [f2.path, f2.path], some f2.path) ∧
    f1.path ∉ ([f2.path, f2.path] : List String) := by
  constructor
  · simp [diskWalker, scanList, scanStep, initCall, initLitenInstance, byteSizeOf,
      createChecksum, md5digest, createExt, makeCreateDate, hb2, hr2, hthr,
      cacheLookup_nil, cacheLookup_cons]
  · simp [hne]

theorem two_identical_files_not_detected_witness :
    (diskWalker initLitenInstance [fileDupA, fileDupB] 1 5).map
        (fun s => (s.dupEvents, s.inst.confirmed_dup_key, s.hashedPaths,
          (cacheLookup s.inst.checksum_cache_key
            (some (md5digest fileDupA.bytes))).map FileRec.fullPath)) =
      some ([], [], [fileDupB.path, fileDupB.path], some fileDupB.path) ∧
    fileDupA.path ∉ ([fileDupB.path, fileDupB.path] : List String) :=
  two_identical_files_not_detected fileDupA fileDupB 1 5
    (by decide) (by decide) rfl (by decide)

/-- C3 counterexample: with one readable seed file and two unreadable
files of the same size, the second unreadable file is recorded as a
duplicate of the first, and the first unreadable file sits in the
checksum cache under the `None` key, contradicting the claim that files
failing the hash step are excluded from the registry and the cache. -/
theorem unreadable_file_not_excluded_cex :
    (diskWalker initLitenInstance [fileSeed, fileUnreadOne, fileUnreadTwo] 1 5).map
        (fun s => (dupPairs s,
          (cacheLookup s.inst.checksum_cache_key none).map FileRec.fullPath)) =
      some ([("u1", "u2")], some "u1") := by decide

/-- C3 amended: a file whose hash step fails yields checksum `None` and
the scan continues, but the file is not excluded: when `None` is not yet
a cache key the file is registered under it, and when it is, the file is
recorded as a duplicate of the previously registered unreadable file. -/
theorem unreadable_file_registered_or_matched (thr d : Nat) (s : ScanState) (f : FSFile)
    (hread : f.readable = false)
    (hthr : thr ≤ byteSizeOf f)
    (hmem : byteSizeOf f ∈ s.inst.byte_cache) :
    (cacheLookup s.inst.checksum_cache_key none = none →
      (scanStep thr d s f).map
          (fun s2 => (cacheLookup s2.inst.checksum_cache_key none).map FileRec.fullPath) =
        some (some f.path)) ∧
    (cacheLookup s.inst.checksum_cache_key none ≠ none → s.regLocals ≠ none →
      (scanStep thr d s f).map ScanState.dupEvents =
        some (s.dupEvents ++
          [⟨((cacheLookup s.inst.checksum_cache_key none).map FileRec.fullPath).getD "",
            f.path, byteSizeOf f, none⟩])) := by
  have hck : createChecksum f = none := by simp [createChecksum, hread]
  constructor
  · intro hnone
    simp only [scanStep, if_pos hthr]
    rw [if_pos hmem]
    simp only [hck, hnone]
    simp [cacheLookup_append_last _ _ _ hnone]
  · intro hsome hreg
    obtain ⟨r0, hr0⟩ := Option.ne_none_iff_exists.mp hsome
    obtain ⟨l0, hl0⟩ := Option.ne_none_iff_exists.mp hreg
    simp only [scanStep, if_pos hthr]
    rw [if_pos hmem]
    simp only [hck, ← hr0, ← hl0]
    simp [← hr0]

theorem unreadable_file_registered_or_matched_witness :
    (cacheLookup stateSeeded.inst.checksum_cache_key none = none →
      (scanStep 1 5 stateSeeded fileUnreadOne).map
          (fun s2 => (cacheLookup s2.inst.checksum_cache_key none).map FileRec.fullPath) =
        some (some fileUnreadOne.path)) ∧
    (cacheLookup stateSeeded.inst.checksum_cache_key none ≠ none →
      stateSeeded.regLocals ≠ none →
      (scanStep 1 5 stateSeeded fileUnreadOne).map ScanState.dupEvents =
        some (stateSeeded.dupEvents ++
          [⟨((cacheLookup stateSeeded.inst.checksum_cache_key none).map
              FileRec.fullPath).getD "",
            fileUnreadOne.path, byteSizeOf fileUnreadOne, none⟩])) :=
  unreadable_file_registered_or_matched 1 5 stateSeeded fileUnreadOne rfl
    (by decide) (by decide)

/-- C4 counterexample: two unreadable files of equal size but different
content are paired as original and duplicate (both hash to `None`),
contradicting the claim that equal-size different-content files are
never paired. -/
theorem equal_size_distinct_content_paired_cex :
    (diskWalker initLitenInstance [fileSeed, fileUnreadOne, fileUnreadTwo] 1 5).map dupPairs =
      some [("u1", "u2")] ∧
    fileUnreadOne.bytes ≠ fileUnreadTwo.bytes ∧
    byteSizeOf fileUnreadOne = byteSizeOf fileUnreadTwo := by decide

/-- C4 amended: for every pair of files of equal byte size but different
content whose contents can both be read (hashing succeeds), no duplicate
record ever pairs them, in either order, for a scan on a fresh instance
over distinctly named files. -/
theorem readable_distinct_content_never_paired
    (files : List FSFile) (thr d : Nat) (fa fb : FSFile) (s2 : ScanState)
    (hnd : (files.map FSFile.path).Nodup)
    (ha : fa ∈ files) (hb : fb ∈ files)
    (hra : fa.readable = true) (hrb : fb.readable = true)
    (_hsz : byteSizeOf fa = byteSizeOf fb)
    (hcontent : fa.bytes ≠ fb.bytes)
    (hrun : diskWalker initLitenInstance files thr d = some s2) :
    (fa.path, fb.path) ∉ dupPairs s2 ∧ (fb.path, fa.path) ∉ dupPairs s2 := by
  have hc0 : CacheSound files (initCall initLitenInstance) := by
    intro k r hmem
    simp [initCall, initLitenInstance] at hmem
  have he0 : EventsSound files (initCall initLitenInstance) := by
    intro e hmem
    simp [initCall, initLitenInstance] at hmem
  obtain ⟨hc2, he2⟩ := scanList_sound files thr d files _ s2 (fun g hg => hg) hc0 he0 hrun
  have main : ∀ x y : FSFile, x ∈ files → y ∈ files → x.readable = true →
      y.readable = true → x.bytes ≠ y.bytes → (x.path, y.path) ∉ dupPairs s2 := by
    intro x y hx hy hrx hry hne hmem
    obtain ⟨e, heev, heq⟩ := List.mem_map.mp hmem
    have ho : e.origPath = x.path := congrArg Prod.fst heq
    have hd : e.dupPath = y.path := congrArg Prod.snd heq
    obtain ⟨g1, g2, hg1, hg2, ho1, hd1, hck1, hck2⟩ := he2 e heev
    have hg1x : g1 = x := List.inj_on_of_nodup_map hnd hg1 hx (by rw [← ho1, ho])
    have hg2y : g2 = y := List.inj_on_of_nodup_map hnd hg2 hy (by rw [← hd1, hd])
    rw [hg1x] at hck1
    rw [hg2y] at hck2
    have hxy : createChecksum x = createChecksum y := hck1.trans hck2.symm
    simp [createChecksum, hrx, hry, md5digest] at hxy
    exact hne hxy
  exact ⟨main fa fb ha hb hra hrb hcontent, main fb fa hb ha hrb hra (Ne.symm hcontent)⟩

theorem readable_distinct_content_never_paired_witness :
    (fileX.path, fileY.path) ∉ dupPairs stateXY ∧
    (fileY.path, fileX.path) ∉ dupPairs stateXY :=
  readable_distinct_content_never_paired [fileX, fileY] 1 5 fileX fileY stateXY
    (by decide) (by decide) (by decide) rfl rfl (by decide) (by decide) rfl

/-- C5 counterexample: a single file below the threshold is still
counted by `record_count` (the examined-file counter is incremented
before the threshold test), contradicting the claim that such a file is
not counted. -/
theorem below_threshold_counted_cex :
    (diskWalker initLitenInstance [fileSmall] 100 5).map ScanState.record_count = some 1 ∧
    (1 : Nat) ≠ 0 := by decide

/-- C5 amended: a regular file strictly below the threshold is counted
in `record_count` but changes nothing else: the size-seen set, the
checksum cache, the registry, the event lists and all other state are
untouched, and the file is never hashed. -/
theorem below_threshold_only_counted (thr d : Nat) (s : ScanState) (f : FSFile)
    (h : byteSizeOf f < thr) :
    scanStep thr d s f = some { s with record_count := s.record_count + 1 } := by
  have h2 : ¬ thr ≤ byteSizeOf f := Nat.not_le.mpr h
  simp [scanStep, h2]

theorem below_threshold_only_counted_witness :
    scanStep 100 5 (initCall initLitenInstance) fileSmall =
      some { initCall initLitenInstance with record_count := (initCall initLitenInstance).record_count + 1 } :=
  below_threshold_only_counted 100 5 (initCall initLitenInstance) fileSmall (by decide)

/-- C6: once the checksum cache maps a key to a record, any further scan
steps leave that mapping intact — a later lookup with the same checksum
returns the existing record, never overwriting it, so the cached record
stays the one of the earliest-examined file that yielded that checksum
among files that triggered hashing. -/
theorem checksum_cache_never_overwritten (thr d : Nat) (files : List FSFile)
    (s s2 : ScanState) (k : Option (List Nat)) (r : FileRec)
    (hk : cacheLookup s.inst.checksum_cache_key k = some r)
    (hrun : scanList thr d s files = some s2) :
    cacheLookup s2.inst.checksum_cache_key k = some r := by
  induction files generalizing s with
  | nil =>
    simp only [scanList] at hrun
    cases hrun
    exact hk
  | cons f fs ih =>
    simp only [scanList] at hrun
    split at hrun
    · exact absurd hrun (by simp)
    · rename_i s1 hstep
      exact ih s1 (scanStep_cache_persists thr d s s1 f k r hk hstep) hrun

theorem checksum_cache_never_overwritten_witness :
    cacheLookup ((scanList 1 5 stateTen [fileTen]).getD stateTen).inst.checksum_cache_key
      (some [9]) = some recOrig :=
  checksum_cache_never_overwritten 1 5 [fileTen] stateTen _ (some [9]) recOrig
    (by decide) rfl

/-- C7: the report's Original and Duplicate lines carry path, size in MB
and a date — but the date written is each file's creation date
(`makeCreateDate`, os.path.getctime), not its modification date, even
though the claim and the code's own comments say modification date; here
both dates differ from the files' mtimes. -/
theorem report_dates_are_creation_dates :
    (diskWalker initLitenInstance [fileDupA, fileDupB, fileDupC] 1 5).map
        ScanState.reportLines =
      some [ReportLine.header,
        ReportLine.entry "Original" fileDupB.path 0 (makeCreateDate fileDupB),
        ReportLine.entry "Duplicate" fileDupC.path 0 (makeCreateDate fileDupC)] ∧
    makeCreateDate fileDupB ≠ makeModDate fileDupB ∧
    makeCreateDate fileDupC ≠ makeModDate fileDupC := by decide

/-- C8: the sequence of (original, duplicate) pairs of a fresh-instance
scan is a deterministic function of the enumeration order, paths, byte
contents and readability of the files and the threshold alone — two runs
over trees equal in those respects, even on different search dates,
yield identical pair sequences (and so re-running an unmodified tree
reproduces the registry pairs in order). -/
theorem scan_deterministic (thr d1 d2 : Nat) (files1 files2 : List FSFile)
    (hp : files1.map keyProj = files2.map keyProj) :
    (diskWalker initLitenInstance files1 thr d1).map dupPairs =
      (diskWalker initLitenInstance files2 thr d2).map dupPairs := by
  have h1 := scanList_projS thr d1 files1 (initCall initLitenInstance)
  have h2 := scanList_projS thr d2 files2 (initCall initLitenInstance)
  calc (diskWalker initLitenInstance files1 thr d1).map dupPairs
      = ((scanList thr d1 (initCall initLitenInstance) files1).map projS).map PState.pairs := by
        rw [map_pairs_projS]
        rfl
    _ = (pList thr (projS (initCall initLitenInstance)) (files1.map keyProj)).map PState.pairs := by
        rw [h1]
    _ = (pList thr (projS (initCall initLitenInstance)) (files2.map keyProj)).map PState.pairs := by
        rw [hp]
    _ = ((scanList thr d2 (initCall initLitenInstance) files2).map projS).map PState.pairs := by
        rw [h2]
    _ = (diskWalker initLitenInstance files2 thr d2).map dupPairs := by
        rw [map_pairs_projS]
        rfl

theorem scan_deterministic_witness :
    (diskWalker initLitenInstance [fileDupA, fileDupB, fileDupC] 1 3).map dupPairs =
      (diskWalker initLitenInstance [fileDupA, fileDupB, fileDupC] 1 7).map dupPairs :=
  scan_deterministic 1 3 7 [fileDupA, fileDupB, fileDupC] [fileDupA, fileDupB, fileDupC] rfl

/-- C9 counterexample: running diskWalker twice on the same instance over
an unchanged two-file tree: the first call records no duplicate, yet the
second call — starting from the instance state the first one left —
reports file y as a duplicate of itself, so the trackers did not start
empty on the second scan. -/
theorem instance_state_persists_cex :
    (diskWalker initLitenInstance [fileX, fileY] 1 5).map dupPairs = some [] ∧
    ((diskWalker initLitenInstance [fileX, fileY] 1 5).bind
        (fun s => diskWalker s.inst [fileX, fileY] 1 5)).map dupPairs =
      some [("y", "y")] := by decide

/-- C9 amended: the per-call counters and the register-branch locals are
scoped to one diskWalker invocation and start at zero or unassigned,
while the four trackers live on the instance: they are empty right after
construction but are passed unchanged into every further diskWalker call
on the same instance, so a scan starts with empty trackers only on a
fresh instance. -/
theorem per_call_locals_reset_instance_state_persists (inst : LitenInstance)
    (files : List FSFile) (thr d : Nat) :
    diskWalker inst files thr d = scanList thr d (initCall inst) files ∧
    (initCall inst).inst = inst ∧
    (initCall inst).byte_count = 0 ∧
    (initCall inst).dupNumber = 0 ∧
    (initCall inst).record_count = 0 ∧
    (initCall inst).regLocals = none ∧
    initLitenInstance.byte_cache = [] ∧
    initLitenInstance.checksum_cache_key = [] ∧
    initLitenInstance.confirmed_dup_key = [] :=
  ⟨rfl, rfl, rfl, rfl, rfl, rfl, rfl, rfl, rfl⟩

/-- C10: in the duplicate-match branch, the registry entry stored under
the original's path is `checksum_cache_value` — the most recently
registered record, whatever checksum it was registered for — and the
duplicate's own registry entry takes `modDate`, `searchDate`, `fileType`
and `fileExt` from the locals left by the last register-branch file
rather than from the duplicate file itself. -/
theorem match_branch_registry_misattribution
    (thr d : Nat) (s : ScanState) (f : FSFile) (l : RegLocals) (r : FileRec)
    (hthr : thr ≤ byteSizeOf f)
    (hmem : byteSizeOf f ∈ s.inst.byte_cache)
    (hl : s.regLocals = some l)
    (hr : cacheLookup s.inst.checksum_cache_key (createChecksum f) = some r)
    (hne : r.fullPath ≠ f.path) :
    (scanStep thr d s f).map (fun s2 =>
        (dictLookup s2.inst.confirmed_dup_key f.path,
         dictLookup s2.inst.confirmed_dup_key r.fullPath)) =
      some
        (some (some (⟨f.path, l.modDate, s.dupNumber + 1, l.searchDate,
           createChecksum f, byteSizeOf f, none, l.fileExt⟩ : FileRec)),
         some s.inst.checksum_cache_value) := by
  simp only [scanStep, if_pos hthr]
  rw [if_pos hmem]
  simp only [hr, hl]
  simp [dictLookup_dictInsert_self, dictLookup_dictInsert_ne _ _ _ _ hne]

theorem match_branch_registry_misattribution_witness :
    (scanStep 1 5 stateTen fileTen).map (fun s2 =>
        (dictLookup s2.inst.confirmed_dup_key fileTen.path,
         dictLookup s2.inst.confirmed_dup_key recOrig.fullPath)) =
      some
        (some (some (⟨fileTen.path, 77, stateTen.dupNumber + 1, 88,
           createChecksum fileTen, byteSizeOf fileTen, none, ".old"⟩ : FileRec)),
         some stateTen.inst.checksum_cache_value) ∧
    stateTen.inst.checksum_cache_value ≠ some recOrig ∧
    (77 : Nat) ≠ makeModDate fileTen ∧ (77 : Nat) ≠ makeCreateDate fileTen :=
  ⟨match_branch_registry_misattribution 1 5 stateTen fileTen ⟨77, 88, ".old"⟩ recOrig
      (by decide) (by decide) rfl (by decide) (by decide),
   by decide, by decide, by decide⟩

end Liten
